import Mathlib

/-
Verification of the LCP encryption gateway handler (pkg/api/encrypt_handler.go).

The handler EncryptEPUB is embedded shallowly as a pure function.  Effects are
made explicit:
  * the parsed multipart request is a Request value (the Go stdlib's
    ParseMultipartForm / FormFile / FormValue are modelled from their
    documented semantics over that value);
  * OS and engine nondeterminism (MkdirTemp, os.Create, io.Copy, MkdirAll,
    encrypt.ProcessEncryption, os.Open, streaming) is an Env value;
  * the filesystem is threaded explicitly as an FS value; the Go
    `defer os.RemoveAll(tempDir)` is desugared into a removeAll at every
    exit point reached after the deferred call is registered;
  * the http.ResponseWriter is an ordered trace of events (header writes,
    the status write, body chunks and plain-text error bodies);
  * logrus calls are a list of structured log lines carrying exactly the
    values the Go format strings interpolate.
Paths are lists of components.  multipart.FileHeader.Filename is modelled as
a single path component (the Go stdlib passes it through filepath.Base).
Bytes are lists of naturals below 256; byte values are never interpreted.
-/

namespace LCP

abbrev FPath := List String
abbrev Bytes := List Nat

/-- Result of looking up the first association for a key, as Go's
multipart form lookups return the first part under a field name. -/
def assocFind {α β : Type} [DecidableEq α] : List (α × β) → α → Option β
  | [], _ => none
  | (k, v) :: rest, n => if k = n then some v else assocFind rest n

/-- One file part of the parsed multipart form: the (Base-sanitised)
upload filename and the uploaded bytes. -/
structure MultipartFile where
  filename : String
  content : Bytes
deriving DecidableEq

/-- The inbound request, abstracted to its parsed multipart content.
wellFormed is false when the body is not syntactically valid multipart
(wrong content type, bad boundary, truncated part, ...). -/
structure Request where
  wellFormed : Bool
  fileParts : List (String × MultipartFile)
  valueParts : List (String × String)
deriving DecidableEq

/-- Total byte size of the non-file form values. -/
def valuesByteSize (r : Request) : Nat :=
  List.foldr (fun kv acc => kv.2.utf8ByteSize + acc) 0 r.valueParts

/-- Total byte size of the multipart payload contents (file parts plus
non-file values). -/
def Request.bodySize (r : Request) : Nat :=
  List.foldr (fun kv acc => kv.2.content.length + acc) 0 r.fileParts + valuesByteSize r

/-- Go net/http Request.ParseMultipartForm(maxMemory): succeeds on any
syntactically valid multipart body whose NON-FILE values fit in
maxMemory + 10 MiB (the stdlib's reserve for non-file parts).  File parts
are spilled to disk when they exceed maxMemory and are never a cause of
failure, so maxMemory is not a cap on the payload size. -/
def parseMultipartForm (maxMemory : Nat) (r : Request) : Bool :=
  r.wellFormed && decide (valuesByteSize r ≤ maxMemory + 10485760)

/-- Go Request.FormFile: first file part under the field name. -/
def formFile (r : Request) (name : String) : Option MultipartFile :=
  assocFind r.fileParts name

/-- Go Request.FormValue: first non-file value under the field name,
empty string when absent. -/
def formValue (r : Request) (name : String) : String :=
  (assocFind r.valueParts name).getD ""

/-- The value 50 << 20 passed to ParseMultipartForm in the handler. -/
def maxBytes : Nat := 52428800

/-- True when root is a path prefix of p (p is root itself or lies in the
tree below it). -/
def pathUnder : FPath → FPath → Bool
  | [], _ => true
  | _ :: _, [] => false
  | a :: as, b :: bs => a = b && pathUnder as bs

/-- The filesystem: existing directories and files with their contents.
Newer entries are consed to the front. -/
structure FS where
  dirs : List FPath
  files : List (FPath × Bytes)
deriving DecidableEq

def FS.mkdir (fs : FS) (p : FPath) : FS :=
  { fs with dirs := p :: fs.dirs }

def FS.writeFile (fs : FS) (p : FPath) (b : Bytes) : FS :=
  { fs with files := (p, b) :: fs.files }

/-- os.RemoveAll: delete the whole tree rooted at p. -/
def FS.removeAll (fs : FS) (p : FPath) : FS :=
  { dirs := fs.dirs.filter (fun q => !(pathUnder p q)),
    files := fs.files.filter (fun e => !(pathUnder p e.1)) }

/-- os.Open/read of a file, returning its bytes when present. -/
def FS.readFile (fs : FS) (p : FPath) : Option Bytes :=
  assocFind fs.files p

/-- The descriptor returned by encrypt.ProcessEncryption (the fields of
the publication the handler consumes). -/
structure Publication where
  UUID : String
  EncryptionKey : Bytes
  Size : Nat
  Checksum : String
  ContentType : String
  Title : String
  FileName : String
deriving DecidableEq

/-- An engine success: the returned descriptor plus the bytes the engine
wrote to outputRepo/FileName. -/
structure EngineOutcome where
  pub : Publication
  artifact : Bytes
deriving DecidableEq

/-- The exact argument tuple of one encrypt.ProcessEncryption invocation,
in the Go parameter order: contentID, contentKey, inputPath, tempRepo,
outputRepo, storageRepo, storageURL, storageFilename, extractCover,
pdfNoMeta. -/
structure EngineArgs where
  contentID : String
  contentKey : String
  inputPath : FPath
  tempRepo : String
  outputRepo : FPath
  storageRepo : String
  storageURL : String
  storageFilename : String
  extractCover : Bool
  pdfNoMeta : Bool
deriving DecidableEq

/-- OS and engine nondeterminism observed by one request: which fallible
calls succeed, the fresh names the OS picks, and the error detail strings
the failing calls would report (interpolated by the %v log verbs). -/
structure Env where
  parseErr : String
  formFileErr : String
  tempDirOk : Bool
  tempDirErr : String
  tempDirPath : FPath
  uuidStr : String
  saveCreateOk : Bool
  saveCopyOk : Bool
  savePartial : Nat
  saveErr : String
  mkdirOutputOk : Bool
  mkdirOutputErr : String
  engineResult : Except String EngineOutcome
  openOutputOk : Bool
  openErr : String
  marshalErr : String
  streamOk : Bool
  streamPartial : Nat
  streamErr : String

/-- Structured log lines, one constructor per logrus call site of the
handler, carrying exactly the interpolated values. -/
inductive LogLine where
  | requestReceived
  | parseFailed (err : String)
  | missingFile (err : String)
  | tempDirFailed (err : String)
  | saveFailed (err : String)
  | outputDirFailed (err : String)
  | encryptionFailed (err : String)
  | openFailed (err : String)
  | marshalFailed (err : String)
  | streamFailed (err : String)
  | success (uuid title : String) (size : Nat)
deriving DecidableEq

/-- The text each LogLine renders to, following the Go format strings. -/
def LogLine.render : LogLine → String
  | .requestReceived => "EncryptEPUB: request received"
  | .parseFailed e => "EncryptEPUB: failed to parse multipart form: " ++ e
  | .missingFile e => "EncryptEPUB: missing file field: " ++ e
  | .tempDirFailed e => "EncryptEPUB: failed to create temp dir: " ++ e
  | .saveFailed e => "EncryptEPUB: failed to save uploaded file: " ++ e
  | .outputDirFailed e => "EncryptEPUB: failed to create output dir: " ++ e
  | .encryptionFailed e => "EncryptEPUB: encryption failed: " ++ e
  | .openFailed e => "EncryptEPUB: failed to open encrypted file: " ++ e
  | .marshalFailed e => "EncryptEPUB: failed to marshal metadata: " ++ e
  | .streamFailed e => "EncryptEPUB: failed to stream encrypted file: " ++ e
  | .success u t s =>
      "EncryptEPUB: success, uuid=" ++ u ++ ", title=" ++ t ++ ", size=" ++ toString s

/-- One event written to the http.ResponseWriter, in emission order. -/
inductive WEvent where
  | header (name value : String)
  | status (code : Nat)
  | chunk (bytes : Bytes)
  | text (s : String)
deriving DecidableEq

/-- Go's http.Error: content-type headers, the status, then the message
with a trailing newline as a plain-text body. -/
def httpError (msg : String) (code : Nat) : List WEvent :=
  [.header "Content-Type" "text/plain; charset=utf-8",
   .header "X-Content-Type-Options" "nosniff",
   .status code,
   .text (msg ++ "\n")]

/-- First status code written to the response. -/
def statusOf : List WEvent → Option Nat
  | [] => none
  | .status c :: _ => some c
  | _ :: rest => statusOf rest

/-- Concatenation of the binary body chunks written to the response. -/
def bodyBytesOf : List WEvent → Bytes
  | [] => []
  | .chunk b :: rest => b ++ bodyBytesOf rest
  | _ :: rest => bodyBytesOf rest

/-- Concatenation of the plain-text bodies written to the response. -/
def textBodyOf : List WEvent → String
  | [] => ""
  | .text s :: rest => s ++ textBodyOf rest
  | _ :: rest => textBodyOf rest

/-- First value of the X-Encrypt-Metadata response header. -/
def metadataHeaderOf : List WEvent → Option String
  | [] => none
  | .header n v :: rest =>
      if n = "X-Encrypt-Metadata" then some v else metadataHeaderOf rest
  | _ :: rest => metadataHeaderOf rest

/-- The struct serialised into the X-Encrypt-Metadata header, with the Go
field order. -/
structure EncryptResponse where
  UUID : String
  EncryptionKey : String
  Size : Nat
  Checksum : String
  ContentType : String
  Title : String
  FileName : String
deriving DecidableEq

/-- The character of the standard base64 alphabet at index n (n < 64). -/
def b64char (n : Nat) : Char :=
  if n < 26 then Char.ofNat (65 + n)
  else if n < 52 then Char.ofNat (97 + (n - 26))
  else if n < 62 then Char.ofNat (48 + (n - 52))
  else if n = 62 then Char.ofNat 43
  else Char.ofNat 47

/-- Go encoding/base64 StdEncoding.EncodeToString over byte lists. -/
def base64Encode : Bytes → String
  | a :: b :: c :: rest =>
      String.mk [b64char (a / 4), b64char (a % 4 * 16 + b / 16),
                 b64char (b % 16 * 4 + c / 64), b64char (c % 64)] ++
      base64Encode rest
  | [a, b] =>
      String.mk [b64char (a / 4), b64char (a % 4 * 16 + b / 16),
                 b64char (b % 16 * 4), Char.ofNat 61]
  | [a] =>
      String.mk [b64char (a / 4), b64char (a % 4 * 16),
                 Char.ofNat 61, Char.ofNat 61]
  | [] => ""

/-- Lower-case hexadecimal digit for n < 16. -/
def hexDigit (n : Nat) : Char :=
  if n < 10 then Char.ofNat (48 + n) else Char.ofNat (87 + n)

/-- Go encoding/json escaping of one character inside a string literal
(the default encoder also escapes the HTML characters and the two
line-separator code points). -/
def jsonEscapeChar (c : Char) : String :=
  if c = Char.ofNat 34 then "\\\""
  else if c = Char.ofNat 92 then "\\\\"
  else if c = Char.ofNat 10 then "\\n"
  else if c = Char.ofNat 13 then "\\r"
  else if c = Char.ofNat 9 then "\\t"
  else if c = Char.ofNat 60 then "\\u003c"
  else if c = Char.ofNat 62 then "\\u003e"
  else if c = Char.ofNat 38 then "\\u0026"
  else if c.toNat < 32 then
    "\\u00" ++ String.mk [hexDigit (c.toNat / 16), hexDigit (c.toNat % 16)]
  else if c.toNat = 8232 then "\\u2028"
  else if c.toNat = 8233 then "\\u2029"
  else String.singleton c

/-- A JSON string literal for s. -/
def jsonQuote (s : String) : String :=
  "\"" ++ String.join (s.data.map jsonEscapeChar) ++ "\""

/-- The JSON object Go's json.Marshal produces for an EncryptResponse:
exactly the seven tagged fields, in struct order. -/
def jsonEncodeEncryptResponse (m : EncryptResponse) : String :=
  "\x7b\"uuid\":" ++ jsonQuote m.UUID ++
  ",\"encryption_key\":" ++ jsonQuote m.EncryptionKey ++
  ",\"size\":" ++ toString m.Size ++
  ",\"checksum\":" ++ jsonQuote m.Checksum ++
  ",\"content_type\":" ++ jsonQuote m.ContentType ++
  ",\"title\":" ++ jsonQuote m.Title ++
  ",\"file_name\":" ++ jsonQuote m.FileName ++ "\x7d"

/-- Go json.Marshal at type EncryptResponse.  Every field is a string or
an unsigned integer, types for which Go's encoder has no error path, so
the call is total and the result is the object above. -/
def goJsonMarshal (m : EncryptResponse) : Except String String :=
  .ok (jsonEncodeEncryptResponse m)

/-- The complete observable outcome of one handler run: the response
event trace, the final filesystem, the log lines, and the engine
invocations that took place. -/
structure HResult where
  events : List WEvent
  fs : FS
  logs : List LogLine
  engineCalls : List EngineArgs
deriving DecidableEq

/-- The handler body, parameterised by the JSON marshaller it calls (the
real instantiation is goJsonMarshal below).  Mirrors EncryptEPUB in
pkg/api/encrypt_handler.go step by step; the deferred
os.RemoveAll(tempDir) is inlined at every exit point after step 3. -/
def handlerWith (marshal : EncryptResponse → Except String String)
    (r : Request) (env : Env) (fs0 : FS) : HResult :=
  let logs0 : List LogLine := [.requestReceived]
  -- 1. Parse multipart form (the Go comment says max 50 MB)
  if parseMultipartForm maxBytes r then
    -- 2. Get the uploaded file
    match formFile r "file" with
    | none =>
      { events := httpError "missing 'file' field" 400, fs := fs0,
        logs := logs0 ++ [.missingFile env.formFileErr], engineCalls := [] }
    | some upload =>
      let title := formValue r "title"
      -- 3. Create temp directory for processing (defer os.RemoveAll)
      if env.tempDirOk then
        let tempDir := env.tempDirPath
        let fs1 := fs0.mkdir tempDir
        -- 4. Save the uploaded file to temp directory
        let inputPath := tempDir ++ [upload.filename]
        if env.saveCreateOk then
          if env.saveCopyOk then
            let fs2 := fs1.writeFile inputPath upload.content
            -- 5. Generate UUID
            let contentID := env.uuidStr
            -- 6. Create output directory
            let outputDir := tempDir ++ ["output"]
            if env.mkdirOutputOk then
              let fs3 := fs2.mkdir outputDir
              -- 7. Encrypt the publication
              let callArgs : EngineArgs :=
                ⟨contentID, "", inputPath, "", outputDir, "", "", "", false, false⟩
              match env.engineResult with
              | .error msg =>
                { events := httpError ("encryption failed: " ++ msg) 500,
                  fs := fs3.removeAll tempDir,
                  logs := logs0 ++ [.encryptionFailed msg],
                  engineCalls := [callArgs] }
              | .ok out =>
                let publication := out.pub
                let fs4 := fs3.writeFile (outputDir ++ [publication.FileName]) out.artifact
                let pubTitle := if title ≠ "" then title else publication.Title
                -- 8. Read the encrypted file
                let encryptedPath := outputDir ++ [publication.FileName]
                match (if env.openOutputOk then fs4.readFile encryptedPath else none) with
                | none =>
                  { events := httpError "internal server error" 500,
                    fs := fs4.removeAll tempDir,
                    logs := logs0 ++ [.openFailed env.openErr],
                    engineCalls := [callArgs] }
                | some fileBytes =>
                  -- 9. Build metadata
                  let metadata : EncryptResponse :=
                    ⟨publication.UUID, base64Encode publication.EncryptionKey,
                     publication.Size, publication.Checksum,
                     publication.ContentType, pubTitle, publication.FileName⟩
                  match marshal metadata with
                  | .error _ =>
                    { events := httpError "internal server error" 500,
                      fs := fs4.removeAll tempDir,
                      logs := logs0 ++ [.marshalFailed env.marshalErr],
                      engineCalls := [callArgs] }
                  | .ok metadataJSON =>
                    -- 10. Set metadata in header, stream encrypted file
                    let hdrs : List WEvent :=
                      [.header "X-Encrypt-Metadata" metadataJSON,
                       .header "Content-Type" publication.ContentType,
                       .header "Content-Disposition"
                         ("attachment; filename=\"" ++ publication.FileName ++ "\""),
                       .status 200]
                    if env.streamOk then
                      { events := hdrs ++ [.chunk fileBytes],
                        fs := fs4.removeAll tempDir,
                        logs := logs0 ++
                          [.success publication.UUID pubTitle publication.Size],
                        engineCalls := [callArgs] }
                    else
                      { events := hdrs ++ [.chunk (fileBytes.take env.streamPartial)],
                        fs := fs4.removeAll tempDir,
                        logs := logs0 ++ [.streamFailed env.streamErr],
                        engineCalls := [callArgs] }
            else
              { events := httpError "internal server error" 500,
                fs := fs2.removeAll tempDir,
                logs := logs0 ++ [.outputDirFailed env.mkdirOutputErr],
                engineCalls := [] }
          else
            let fs2 := fs1.writeFile inputPath (upload.content.take env.savePartial)
            { events := httpError "internal server error" 500,
              fs := fs2.removeAll tempDir,
              logs := logs0 ++ [.saveFailed env.saveErr], engineCalls := [] }
        else
          { events := httpError "internal server error" 500,
            fs := fs1.removeAll tempDir,
            logs := logs0 ++ [.saveFailed env.saveErr], engineCalls := [] }
      else
        { events := httpError "internal server error" 500, fs := fs0,
          logs := logs0 ++ [.tempDirFailed env.tempDirErr], engineCalls := [] }
  else
    { events := httpError "failed to parse multipart form" 400, fs := fs0,
      logs := logs0 ++ [.parseFailed env.parseErr], engineCalls := [] }

/-- The handler as shipped: handlerWith instantiated with the real
json.Marshal model. -/
def EncryptEPUB (r : Request) (env : Env) (fs0 : FS) : HResult :=
  handlerWith goJsonMarshal r env fs0

/-- Concrete fixtures used by the witness theorems. -/
def pub0 : Publication :=
  ⟨"uuid-1", [1, 250, 3, 4], 3, "sha-xyz", "application/epub+zip",
   "Engine Title", "out.epub"⟩

def upload0 : MultipartFile := ⟨"book.epub", [10, 20, 30, 40, 50]⟩

def req0 : Request := ⟨true, [("file", upload0)], [("title", "User Title")]⟩

def reqNoTitle : Request := ⟨true, [("file", upload0)], []⟩

def reqNoFile : Request := ⟨true, [], [("title", "User Title")]⟩

def reqBadForm : Request := ⟨false, [("file", upload0)], []⟩

def env0 : Env :=
  { parseErr := "multipart: NextPart: EOF", formFileErr := "http: no such file",
    tempDirOk := true, tempDirErr := "", tempDirPath := ["tmp", "lcp-encrypt-1"],
    uuidStr := "uuid-1", saveCreateOk := true, saveCopyOk := true,
    savePartial := 0, saveErr := "", mkdirOutputOk := true, mkdirOutputErr := "",
    engineResult := .ok ⟨pub0, [9, 8, 7]⟩, openOutputOk := true, openErr := "",
    marshalErr := "", streamOk := true, streamPartial := 0, streamErr := "" }

def fsEmpty : FS := ⟨[], []⟩

/-- No entry of fs lies at or below p. -/
def FS.clearOf (fs : FS) (p : FPath) : Prop :=
  (∀ q ∈ fs.dirs, pathUnder p q = false) ∧
  (∀ e ∈ fs.files, pathUnder p e.1 = false)

instance (fs : FS) (p : FPath) : Decidable (fs.clearOf p) := by
  unfold FS.clearOf; infer_instance

/-- os.RemoveAll leaves nothing at or below the removed root. -/
theorem removeAll_clearOf (fs : FS) (p : FPath) : (fs.removeAll p).clearOf p := by
  constructor <;>
    simp +contextual [FS.clearOf, FS.removeAll, List.mem_filter]

/-- Characterisation of a fully successful run of the handler. -/
theorem success_run (r : Request) (env : Env) (fs0 : FS) (u : MultipartFile)
    (out : EngineOutcome)
    (hp : parseMultipartForm maxBytes r = true)
    (hf : formFile r "file" = some u)
    (ht : env.tempDirOk = true)
    (hc : env.saveCreateOk = true)
    (hw : env.saveCopyOk = true)
    (hm : env.mkdirOutputOk = true)
    (he : env.engineResult = Except.ok out)
    (ho : env.openOutputOk = true)
    (hs : env.streamOk = true) :
    EncryptEPUB r env fs0 =
      { events :=
          [.header "X-Encrypt-Metadata" (jsonEncodeEncryptResponse
             ⟨out.pub.UUID, base64Encode out.pub.EncryptionKey, out.pub.Size,
              out.pub.Checksum, out.pub.ContentType,
              (if formValue r "title" ≠ "" then formValue r "title" else out.pub.Title),
              out.pub.FileName⟩),
           .header "Content-Type" out.pub.ContentType,
           .header "Content-Disposition"
             ("attachment; filename=\"" ++ out.pub.FileName ++ "\""),
           .status 200,
           .chunk out.artifact],
        fs := ((((fs0.mkdir env.tempDirPath).writeFile
                  (env.tempDirPath ++ [u.filename]) u.content).mkdir
                  (env.tempDirPath ++ ["output"])).writeFile
                  ((env.tempDirPath ++ ["output"]) ++ [out.pub.FileName])
                  out.artifact).removeAll env.tempDirPath,
        logs := [.requestReceived,
                 .success out.pub.UUID
                   (if formValue r "title" ≠ "" then formValue r "title" else out.pub.Title)
                   out.pub.Size],
        engineCalls :=
          [⟨env.uuidStr, "", env.tempDirPath ++ [u.filename], "",
            env.tempDirPath ++ ["output"], "", "", "", false, false⟩] } := by
  unfold EncryptEPUB handlerWith
  rw [hp, hf, ht, hc, hw, hm, he, ho]
  simp only [if_true]
  simp [goJsonMarshal, FS.readFile, FS.writeFile, FS.mkdir, assocFind, hs]

/-- Claim C1: whenever the handler creates its temporary workspace
directory (multipart parse succeeded, the file part was found, and
MkdirTemp succeeded), the final filesystem holds no directory and no file
at or below that workspace root, on every exit path: the deferred
os.RemoveAll runs at each return after creation, including every error
branch and a failure while streaming the body. -/
theorem C1_workspace_cleanup (r : Request) (env : Env) (fs0 : FS)
    (u : MultipartFile)
    (hp : parseMultipartForm maxBytes r = true)
    (hf : formFile r "file" = some u)
    (ht : env.tempDirOk = true) :
    FS.clearOf (EncryptEPUB r env fs0).fs env.tempDirPath := by
  unfold EncryptEPUB handlerWith
  simp only [hp, hf, ht, eq_self_iff_true, if_true]
  repeat' split
  all_goals exact removeAll_clearOf _ _

/-- Witness for C1 at a concrete request, environment and filesystem. -/
theorem C1_workspace_cleanup_witness :
    parseMultipartForm maxBytes req0 = true ∧
    formFile req0 "file" = some upload0 ∧
    env0.tempDirOk = true ∧
    FS.clearOf (EncryptEPUB req0 env0 fsEmpty).fs env0.tempDirPath :=
  ⟨by decide, by decide, rfl,
   C1_workspace_cleanup req0 env0 fsEmpty upload0 (by decide) (by decide) rfl⟩

/-- Claim C5: when the multipart form has no file part under the field
name file, the handler answers 400 and the filesystem is untouched (no
workspace is ever created), whether the multipart parse itself succeeds
or fails. -/
theorem C5_missing_file_no_workspace (r : Request) (env : Env) (fs0 : FS)
    (hf : formFile r "file" = none) :
    statusOf (EncryptEPUB r env fs0).events = some 400 ∧
    (EncryptEPUB r env fs0).fs = fs0 := by
  unfold EncryptEPUB handlerWith
  cases hp : parseMultipartForm maxBytes r <;>
    simp [hp, hf, statusOf, httpError]

/-- Witness for C5 at a concrete request lacking the file part. -/
theorem C5_missing_file_no_workspace_witness :
    formFile reqNoFile "file" = none ∧
    statusOf (EncryptEPUB reqNoFile env0 fsEmpty).events = some 400 ∧
    (EncryptEPUB reqNoFile env0 fsEmpty).fs = fsEmpty :=
  ⟨by decide,
   (C5_missing_file_no_workspace reqNoFile env0 fsEmpty (by decide)).1,
   (C5_missing_file_no_workspace reqNoFile env0 fsEmpty (by decide)).2⟩

/-- Claim C2: on a fully successful request, and given the engine
contract that the descriptor's Size is the byte length of the artifact
file it names, the size carried in X-Encrypt-Metadata equals the exact
byte length of the streamed body; the metadata header is computed from
the one returned descriptor and the body is the one file that descriptor
names, so metadata and body cannot diverge. -/
theorem C2_metadata_matches_body (r : Request) (env : Env) (fs0 : FS)
    (u : MultipartFile) (out : EngineOutcome)
    (hp : parseMultipartForm maxBytes r = true)
    (hf : formFile r "file" = some u)
    (ht : env.tempDirOk = true)
    (hc : env.saveCreateOk = true)
    (hw : env.saveCopyOk = true)
    (hm : env.mkdirOutputOk = true)
    (he : env.engineResult = Except.ok out)
    (ho : env.openOutputOk = true)
    (hs : env.streamOk = true)
    (hlen : out.artifact.length = out.pub.Size) :
    statusOf (EncryptEPUB r env fs0).events = some 200 ∧
    metadataHeaderOf (EncryptEPUB r env fs0).events =
      some (jsonEncodeEncryptResponse
        ⟨out.pub.UUID, base64Encode out.pub.EncryptionKey, out.pub.Size,
         out.pub.Checksum, out.pub.ContentType,
         (if formValue r "title" ≠ "" then formValue r "title" else out.pub.Title),
         out.pub.FileName⟩) ∧
    bodyBytesOf (EncryptEPUB r env fs0).events = out.artifact ∧
    (bodyBytesOf (EncryptEPUB r env fs0).events).length = out.pub.Size := by
  rw [success_run r env fs0 u out hp hf ht hc hw hm he ho hs]
  refine ⟨rfl, ?_, ?_, ?_⟩ <;>
    simp [metadataHeaderOf, bodyBytesOf, hlen]

/-- Witness for C2 at a concrete successful request. -/
theorem C2_metadata_matches_body_witness :
    ([9, 8, 7] : Bytes).length = pub0.Size ∧
    bodyBytesOf (EncryptEPUB req0 env0 fsEmpty).events = [9, 8, 7] ∧
    (bodyBytesOf (EncryptEPUB req0 env0 fsEmpty).events).length = pub0.Size :=
  ⟨by decide,
   (C2_metadata_matches_body req0 env0 fsEmpty upload0 ⟨pub0, [9, 8, 7]⟩
     (by decide) (by decide) rfl rfl rfl rfl rfl rfl rfl (by decide)).2.2.1,
   (C2_metadata_matches_body req0 env0 fsEmpty upload0 ⟨pub0, [9, 8, 7]⟩
     (by decide) (by decide) rfl rfl rfl rfl rfl rfl rfl (by decide)).2.2.2⟩

/-- Claim C4: on a successful request the emitted title is the
caller-supplied title form value when that value is non-empty, and the
engine-extracted descriptor title otherwise (omitted or empty form
field), including the empty string when the engine provides none. -/
theorem C4_title_resolution (r : Request) (env : Env) (fs0 : FS)
    (u : MultipartFile) (out : EngineOutcome)
    (hp : parseMultipartForm maxBytes r = true)
    (hf : formFile r "file" = some u)
    (ht : env.tempDirOk = true)
    (hc : env.saveCreateOk = true)
    (hw : env.saveCopyOk = true)
    (hm : env.mkdirOutputOk = true)
    (he : env.engineResult = Except.ok out)
    (ho : env.openOutputOk = true)
    (hs : env.streamOk = true) :
    (formValue r "title" ≠ "" →
      metadataHeaderOf (EncryptEPUB r env fs0).events =
        some (jsonEncodeEncryptResponse
          ⟨out.pub.UUID, base64Encode out.pub.EncryptionKey, out.pub.Size,
           out.pub.Checksum, out.pub.ContentType, formValue r "title",
           out.pub.FileName⟩)) ∧
    (formValue r "title" = "" →
      metadataHeaderOf (EncryptEPUB r env fs0).events =
        some (jsonEncodeEncryptResponse
          ⟨out.pub.UUID, base64Encode out.pub.EncryptionKey, out.pub.Size,
           out.pub.Checksum, out.pub.ContentType, out.pub.Title,
           out.pub.FileName⟩)) := by
  rw [success_run r env fs0 u out hp hf ht hc hw hm he ho hs]
  constructor <;> intro h <;> simp [metadataHeaderOf, h]

/-- Witness for C4: a supplied non-empty title wins over the extracted
one at a concrete request. -/
theorem C4_title_resolution_witness :
    formValue req0 "title" ≠ "" ∧
    metadataHeaderOf (EncryptEPUB req0 env0 fsEmpty).events =
      some (jsonEncodeEncryptResponse
        ⟨pub0.UUID, base64Encode pub0.EncryptionKey, pub0.Size, pub0.Checksum,
         pub0.ContentType, formValue req0 "title", pub0.FileName⟩) :=
  ⟨by decide,
   (C4_title_resolution req0 env0 fsEmpty upload0 ⟨pub0, [9, 8, 7]⟩
     (by decide) (by decide) rfl rfl rfl rfl rfl rfl rfl).1 (by decide)⟩

/-- Claim C6: a successful request produces exactly this response trace:
the X-Encrypt-Metadata header holding the JSON object with the seven
fields (the key base64-encoded, the title after the override rule), the
Content-Type header from the descriptor, the Content-Disposition
attachment header naming the descriptor's filename, status 200, and then
the raw artifact bytes as the body; headers and status precede the body
in the trace. -/
theorem C6_success_response_shape (r : Request) (env : Env) (fs0 : FS)
    (u : MultipartFile) (out : EngineOutcome)
    (hp : parseMultipartForm maxBytes r = true)
    (hf : formFile r "file" = some u)
    (ht : env.tempDirOk = true)
    (hc : env.saveCreateOk = true)
    (hw : env.saveCopyOk = true)
    (hm : env.mkdirOutputOk = true)
    (he : env.engineResult = Except.ok out)
    (ho : env.openOutputOk = true)
    (hs : env.streamOk = true) :
    (EncryptEPUB r env fs0).events =
      [.header "X-Encrypt-Metadata" (jsonEncodeEncryptResponse
         ⟨out.pub.UUID, base64Encode out.pub.EncryptionKey, out.pub.Size,
          out.pub.Checksum, out.pub.ContentType,
          (if formValue r "title" ≠ "" then formValue r "title" else out.pub.Title),
          out.pub.FileName⟩),
       .header "Content-Type" out.pub.ContentType,
       .header "Content-Disposition"
         ("attachment; filename=\"" ++ out.pub.FileName ++ "\""),
       .status 200,
       .chunk out.artifact] := by
  rw [success_run r env fs0 u out hp hf ht hc hw hm he ho hs]

/-- Witness for C6 at a concrete successful request. -/
theorem C6_success_response_shape_witness :
    (EncryptEPUB req0 env0 fsEmpty).events =
      [.header "X-Encrypt-Metadata" (jsonEncodeEncryptResponse
         ⟨pub0.UUID, base64Encode pub0.EncryptionKey, pub0.Size, pub0.Checksum,
          pub0.ContentType,
          (if formValue req0 "title" ≠ "" then formValue req0 "title" else pub0.Title),
          pub0.FileName⟩),
       .header "Content-Type" pub0.ContentType,
       .header "Content-Disposition"
         ("attachment; filename=\"" ++ pub0.FileName ++ "\""),
       .status 200,
       .chunk [9, 8, 7]] :=
  C6_success_response_shape req0 env0 fsEmpty upload0 ⟨pub0, [9, 8, 7]⟩
    (by decide) (by decide) rfl rfl rfl rfl rfl rfl rfl

/-- Claim C8: any request that reaches the encryption step (parse, file
lookup, temp dir, staging and output dir all succeeded) invokes the
engine exactly once, with the generated identifier, an empty content
key, the staged input path, the workspace's output subdirectory, and
every optional parameter (temp and storage repos, storage URL, storage
filename, cover extraction, PDF metadata stripping) at its empty or
disabled default — whatever the engine then returns. -/
theorem C8_engine_invocation (r : Request) (env : Env) (fs0 : FS)
    (u : MultipartFile)
    (hp : parseMultipartForm maxBytes r = true)
    (hf : formFile r "file" = some u)
    (ht : env.tempDirOk = true)
    (hc : env.saveCreateOk = true)
    (hw : env.saveCopyOk = true)
    (hm : env.mkdirOutputOk = true) :
    (EncryptEPUB r env fs0).engineCalls =
      [⟨env.uuidStr, "", env.tempDirPath ++ [u.filename], "",
        env.tempDirPath ++ ["output"], "", "", "", false, false⟩] := by
  unfold EncryptEPUB handlerWith
  simp only [hp, hf, ht, hc, hw, hm, eq_self_iff_true, if_true]
  repeat' split
  all_goals rfl

/-- Witness for C8 at a concrete request reaching the encryption step. -/
theorem C8_engine_invocation_witness :
    (EncryptEPUB req0 env0 fsEmpty).engineCalls =
      [⟨env0.uuidStr, "", env0.tempDirPath ++ [upload0.filename], "",
        env0.tempDirPath ++ ["output"], "", "", "", false, false⟩] :=
  C8_engine_invocation req0 env0 fsEmpty upload0 (by decide) (by decide)
    rfl rfl rfl rfl

/-- Claim C7: each failure is answered immediately and without local
recovery — 400 with the matching plain-text body for a malformed
multipart payload or a missing file field, and 500 with a plain-text
body naming the failure class for temp-directory creation, staged-write,
output-directory creation, engine, output-open and metadata-marshal
failures (the marshal branch stated for an arbitrary marshaller, since
the shipped one is total). -/
theorem C7_error_taxonomy (marshal : EncryptResponse → Except String String)
    (r : Request) (env : Env) (fs0 : FS) :
    (parseMultipartForm maxBytes r = false →
      statusOf (handlerWith marshal r env fs0).events = some 400 ∧
      textBodyOf (handlerWith marshal r env fs0).events =
        "failed to parse multipart form\n") ∧
    (parseMultipartForm maxBytes r = true →
     formFile r "file" = none →
      statusOf (handlerWith marshal r env fs0).events = some 400 ∧
      textBodyOf (handlerWith marshal r env fs0).events =
        "missing 'file' field\n") ∧
    (∀ u, parseMultipartForm maxBytes r = true →
     formFile r "file" = some u →
     env.tempDirOk = false →
      statusOf (handlerWith marshal r env fs0).events = some 500 ∧
      textBodyOf (handlerWith marshal r env fs0).events =
        "internal server error\n") ∧
    (∀ u, parseMultipartForm maxBytes r = true →
     formFile r "file" = some u →
     env.tempDirOk = true →
     env.saveCreateOk = false →
      statusOf (handlerWith marshal r env fs0).events = some 500 ∧
      textBodyOf (handlerWith marshal r env fs0).events =
        "internal server error\n") ∧
    (∀ u, parseMultipartForm maxBytes r = true →
     formFile r "file" = some u →
     env.tempDirOk = true →
     env.saveCreateOk = true →
     env.saveCopyOk = false →
      statusOf (handlerWith marshal r env fs0).events = some 500 ∧
      textBodyOf (handlerWith marshal r env fs0).events =
        "internal server error\n") ∧
    (∀ u, parseMultipartForm maxBytes r = true →
     formFile r "file" = some u →
     env.tempDirOk = true →
     env.saveCreateOk = true →
     env.saveCopyOk = true →
     env.mkdirOutputOk = false →
      statusOf (handlerWith marshal r env fs0).events = some 500 ∧
      textBodyOf (handlerWith marshal r env fs0).events =
        "internal server error\n") ∧
    (∀ u msg, parseMultipartForm maxBytes r = true →
     formFile r "file" = some u →
     env.tempDirOk = true →
     env.saveCreateOk = true →
     env.saveCopyOk = true →
     env.mkdirOutputOk = true →
     env.engineResult = Except.error msg →
      statusOf (handlerWith marshal r env fs0).events = some 500 ∧
      textBodyOf (handlerWith marshal r env fs0).events =
        "encryption failed: " ++ msg ++ "\n") ∧
    (∀ u out, parseMultipartForm maxBytes r = true →
     formFile r "file" = some u →
     env.tempDirOk = true →
     env.saveCreateOk = true →
     env.saveCopyOk = true →
     env.mkdirOutputOk = true →
     env.engineResult = Except.ok out →
     env.openOutputOk = false →
      statusOf (handlerWith marshal r env fs0).events = some 500 ∧
      textBodyOf (handlerWith marshal r env fs0).events =
        "internal server error\n") ∧
    (∀ u out e, parseMultipartForm maxBytes r = true →
     formFile r "file" = some u →
     env.tempDirOk = true →
     env.saveCreateOk = true →
     env.saveCopyOk = true →
     env.mkdirOutputOk = true →
     env.engineResult = Except.ok out →
     env.openOutputOk = true →
     marshal ⟨out.pub.UUID, base64Encode out.pub.EncryptionKey, out.pub.Size,
              out.pub.Checksum, out.pub.ContentType,
              (if formValue r "title" = "" then out.pub.Title else formValue r "title"),
              out.pub.FileName⟩ = Except.error e →
      statusOf (handlerWith marshal r env fs0).events = some 500 ∧
      textBodyOf (handlerWith marshal r env fs0).events =
        "internal server error\n") := by
  refine ⟨?_, ?_, ?_, ?_, ?_, ?_, ?_, ?_, ?_⟩ <;> intros <;>
    simp [handlerWith, *, statusOf, textBodyOf, httpError,
          FS.readFile, FS.writeFile, FS.mkdir, assocFind]

/-- Witness for C7 at a concrete malformed request (the 400 branch). -/
theorem C7_error_taxonomy_witness :
    parseMultipartForm maxBytes reqBadForm = false ∧
    statusOf (handlerWith goJsonMarshal reqBadForm env0 fsEmpty).events = some 400 ∧
    textBodyOf (handlerWith goJsonMarshal reqBadForm env0 fsEmpty).events =
      "failed to parse multipart form\n" :=
  ⟨by decide,
   ((C7_error_taxonomy goJsonMarshal reqBadForm env0 fsEmpty).1 (by decide)).1,
   ((C7_error_taxonomy goJsonMarshal reqBadForm env0 fsEmpty).1 (by decide)).2⟩

/-- The environment with the content key of the engine's descriptor
replaced, everything else unchanged. -/
def Env.withKey (env : Env) (k : Bytes) : Env :=
  { env with engineResult :=
      match env.engineResult with
      | .error e => .error e
      | .ok out => .ok ⟨{ out.pub with EncryptionKey := k }, out.artifact⟩ }

/-- The response trace with every X-Encrypt-Metadata header value
blanked out. -/
def scrubMeta : List WEvent → List WEvent
  | [] => []
  | .header n v :: rest =>
      (if n = "X-Encrypt-Metadata" then .header n "" else .header n v) ::
        scrubMeta rest
  | e :: rest => e :: scrubMeta rest

/-- Claim C9 (noninterference): varying the raw content key of the
engine's descriptor, with everything else fixed, changes nothing the
handler emits except the X-Encrypt-Metadata header value: the log lines,
every plain-text (error) body, the whole trace outside that header, and
the final filesystem are identical.  The raw key therefore never reaches
a log line or an error body, and leaves only through the metadata header
of a success (where it is base64-encoded, per the response-shape
theorems). -/
theorem C9_key_noninterference (r : Request) (env : Env) (fs0 : FS) (k : Bytes) :
    (EncryptEPUB r (env.withKey k) fs0).logs = (EncryptEPUB r env fs0).logs ∧
    textBodyOf (EncryptEPUB r (env.withKey k) fs0).events =
      textBodyOf (EncryptEPUB r env fs0).events ∧
    scrubMeta (EncryptEPUB r (env.withKey k) fs0).events =
      scrubMeta (EncryptEPUB r env fs0).events ∧
    (EncryptEPUB r (env.withKey k) fs0).fs = (EncryptEPUB r env fs0).fs := by
  cases henc : env.engineResult with
  | error e =>
      have hEq : env.withKey k = env := by
        cases env
        simp_all [Env.withKey]
      rw [hEq]
      exact ⟨rfl, rfl, rfl, rfl⟩
  | ok out =>
      cases hpe : parseMultipartForm maxBytes r <;>
      cases hff : formFile r "file" <;>
      cases htd : env.tempDirOk <;>
      cases hsc : env.saveCreateOk <;>
      cases hcp : env.saveCopyOk <;>
      cases hmo : env.mkdirOutputOk <;>
      cases hoo : env.openOutputOk <;>
      cases hst : env.streamOk <;>
        simp [EncryptEPUB, handlerWith, Env.withKey, henc, hpe, hff, htd, hsc,
              hcp, hmo, hoo, hst, scrubMeta, textBodyOf, httpError,
              FS.readFile, FS.writeFile, FS.mkdir, assocFind, goJsonMarshal]

/-- Claim C10: serialising the assembled metadata never fails — the
marshaller is total on EncryptResponse (every field a string or an
unsigned integer) — so the handler's marshal-failure branch is
unreachable: no run ever emits its log line. -/
theorem C10_marshal_never_fails :
    (∀ m : EncryptResponse,
       goJsonMarshal m = Except.ok (jsonEncodeEncryptResponse m)) ∧
    (∀ (r : Request) (env : Env) (fs0 : FS) (l : LogLine),
       l ∈ (EncryptEPUB r env fs0).logs → ∀ e, l ≠ LogLine.marshalFailed e) := by
  refine ⟨fun m => rfl, ?_⟩
  intro r env fs0 l hl e hAbs
  subst hAbs
  cases hpe : parseMultipartForm maxBytes r <;>
  cases hff : formFile r "file" <;>
  cases htd : env.tempDirOk <;>
  cases hsc : env.saveCreateOk <;>
  cases hcp : env.saveCopyOk <;>
  cases hmo : env.mkdirOutputOk <;>
  cases henc : env.engineResult <;>
  cases hoo : env.openOutputOk <;>
  cases hst : env.streamOk <;>
    simp_all [EncryptEPUB, handlerWith, goJsonMarshal,
              FS.readFile, FS.writeFile, FS.mkdir, assocFind]

/-- Witness for C10's membership hypothesis at a concrete run. -/
theorem C10_marshal_never_fails_witness :
    LogLine.requestReceived ∈ (EncryptEPUB req0 env0 fsEmpty).logs ∧
    LogLine.requestReceived ≠ LogLine.marshalFailed "boom" :=
  ⟨by decide,
   C10_marshal_never_fails.2 req0 env0 fsEmpty LogLine.requestReceived
     (by decide) "boom"⟩

/-- A well-formed upload whose single file part is 51 MiB, one mebibyte
over the limit the spec prescribes. -/
def bigUpload : MultipartFile := ⟨"book.epub", List.replicate 53477376 0⟩

def bigReq : Request := ⟨true, [("file", bigUpload)], []⟩

/-- Payload size of a request holding exactly one file part and no
value parts. -/
theorem bodySize_one_file (wf : Bool) (n : String) (u : MultipartFile) :
    (Request.mk wf [(n, u)] []).bodySize = u.content.length := by
  simp [Request.bodySize, valuesByteSize]

/-- Claim C3 fails on the code: ParseMultipartForm's 50 MiB argument is
Go's in-memory buffering threshold, not a payload cap, so a well-formed
multipart body of 51 MiB (all of it in the file part) parses
successfully and the request is served with status 200 rather than being
rejected with 400. -/
theorem C3_oversize_payload_accepted :
    maxBytes < bigReq.bodySize ∧
    parseMultipartForm maxBytes bigReq = true ∧
    statusOf (EncryptEPUB bigReq env0 fsEmpty).events = some 200 := by
  have hp : parseMultipartForm maxBytes bigReq = true := by
    simp [parseMultipartForm, bigReq, valuesByteSize, maxBytes]
  have hf : formFile bigReq "file" = some bigUpload := by
    simp [formFile, bigReq, assocFind]
  have h1 : bigReq.bodySize = bigUpload.content.length :=
    bodySize_one_file true "file" bigUpload
  have h2 : bigUpload.content.length = 53477376 := by
    show (List.replicate 53477376 (0 : Nat)).length = 53477376
    rw [List.length_replicate]
  refine ⟨?_, hp, ?_⟩
  · rw [h1, h2]
    norm_num [maxBytes]
  · rw [success_run bigReq env0 fsEmpty bigUpload ⟨pub0, [9, 8, 7]⟩ hp hf
        rfl rfl rfl rfl rfl rfl rfl]
    rfl

end LCP
